import Mathlib

/-!
Verification of the smartrent-scraper job orchestration engine.

This file embeds, as executable Lean definitions, the parts of the source
relevant to the orchestration claims:

* `ScraperUtils.withRetry` (src/src/utils/scraper-utils.ts) — the retry
  executor with exponential backoff;
* `RateLimiter.waitIfNeeded` (src/src/utils/rate-limiter.ts) — the
  sliding-window rate limiter;
* `ScrapingJobService.processScrapingJob` / `exportData` /
  `startBackgroundJob` (job service) — the orchestrator: pagination crawl
  loop, export fan-out, lifecycle updates, cleanup, running-job table;
* `JobManagementService.updateScrapingJob` (job management service) — the
  persisted job update;
* `BSDScraper.getTotalPages` (src/src/modules/scrapers/bsd-scraper.ts);
* `DatabaseExporter.exportProperty` (database exporter) — the upsert
  keyed on `sourceUrl`;
* `ScraperFactory.getScraper` / `ExporterFactory.getExporters` — the
  registries.

Asynchronous effects are embedded as traces: sleeps, page visits, export
calls and status updates become events in a list, and external outcomes
(network calls, browser operations) are parameters of type `Except`.
Times are integer milliseconds.
-/

/-! ## Retry executor (`ScraperUtils.withRetry`) -/

/-- The backoff delay computed after the failure of attempt `attempt`
(1-indexed): `Math.min(1000 * Math.pow(2, attempt - 1), 10000)`. -/
def backoffDelay (attempt : Nat) : Nat :=
  min (1000 * 2 ^ (attempt - 1)) 10000

/-- Observable outcome of a `withRetry` execution: the value returned or the
error thrown (`Except.error none` stands for the fallback
`new Error(operationName + " failed after ...")` raised when `lastError` is
still `null`, i.e. when the loop body never ran), the number of times the
operation was invoked, and the list of backoff delays slept, in order. -/
structure RetryTrace (E A : Type) where
  result : Except (Option E) A
  invocations : Nat
  delays : List Nat

/-- The attempt loop of `ScraperUtils.withRetry`, from attempt number
`attempt` on.  `op k` is the outcome of the `k`-th invocation of the
operation.  `fuel` bounds the recursion; `maxRetries + 1 - attempt` is
always sufficient, and the fuel-exhaustion value coincides with the
loop-exit value. -/
def withRetryGo (op : Nat → Except E A) (maxRetries : Nat) :
    Nat → Nat → RetryTrace E A
  | 0, _ => ⟨.error none, 0, []⟩
  | fuel + 1, attempt =>
    if attempt ≤ maxRetries then
      match op attempt with
      | .ok v => ⟨.ok v, 1, []⟩
      | .error e =>
        if attempt < maxRetries then
          let rest := withRetryGo op maxRetries fuel (attempt + 1)
          ⟨rest.result, rest.invocations + 1, backoffDelay attempt :: rest.delays⟩
        else
          ⟨.error (some e), 1, []⟩
    else ⟨.error none, 0, []⟩

/-- `ScraperUtils.withRetry(operation, maxRetries)`: run the operation up to
`maxRetries` times, sleeping `backoffDelay attempt` after each failed
attempt except the last, and finally rethrow the last observed error. -/
def withRetry (op : Nat → Except E A) (maxRetries : Nat) : RetryTrace E A :=
  withRetryGo op maxRetries maxRetries 1

/-! ## Rate limiter (`RateLimiter.waitIfNeeded`) -/

/-- Number of recorded timestamps lying in the trailing 60-second window
ending at time `t` (strict lower bound, as in the source's
`timestamp > oneMinuteAgo`). -/
def windowCount (requests : List Int) (t : Int) : Nat :=
  (requests.filter (fun ts => t - 60000 < ts)).length

/-- State of a `RateLimiter` together with the current clock: the recorded
request timestamps (`this.requests`) and the current time in ms. -/
structure RLState where
  requests : List Int
  now : Int
  deriving Repr, DecidableEq

/-- `RateLimiter.waitIfNeeded` as a state transformer.  Returns the state
after the call completes (with the clock advanced by any sleep) and the
duration actually slept.  Steps, as in the source: capture `now`; drop
timestamps `≤ now - 60000`; if at least `limit` remain, compute
`oldest + 60000 - now` and sleep it when positive; finally push the
captured `now`.  (`Math.min()` of an empty spread is unreachable for any
positive `limit`; the `getD s.now` default covers `limit = 0`, where the
JS code would sleep forever.) -/
def waitIfNeeded (limit : Nat) (s : RLState) : RLState × Int :=
  let now := s.now
  let kept := s.requests.filter (fun ts => now - 60000 < ts)
  if limit ≤ kept.length then
    let oldest := kept.min?.getD now
    let waitTime := oldest + 60000 - now
    if 0 < waitTime then
      (⟨kept ++ [now], now + waitTime⟩, waitTime)
    else
      (⟨kept ++ [now], now⟩, 0)
  else
    (⟨kept ++ [now], now⟩, 0)

/-- Issue a sequence of `waitIfNeeded` calls; before each call the clock
advances by the corresponding gap (ms).  Returns the state after each
call, in order. -/
def runCalls (limit : Nat) (gaps : List Nat) (s : RLState) : List RLState :=
  match gaps with
  | [] => []
  | g :: rest =>
    let s' := (waitIfNeeded limit ⟨s.requests, s.now + (g : Int)⟩).1
    s' :: runCalls limit rest s'

/-! ## Job model (`JobManagementService`) -/

/-- Job lifecycle status, as in the Prisma schema and `JobUpdateData`. -/
inductive JobStatus where
  | pending
  | running
  | completed
  | failed
  deriving Repr, DecidableEq

/-- The structured error payload the orchestrator persists on failure:
`{ message, timestamp: new Date().toISOString() }`. -/
structure JobErrors where
  message : String
  timestamp : String
  deriving Repr, DecidableEq

/-- `JobUpdateData`: the partial update passed to
`JobManagementService.updateScrapingJob`.  Absent fields are `none`. -/
structure JobUpdateData where
  status : Option JobStatus := none
  itemsFound : Option Nat := none
  itemsProcessed : Option Nat := none
  errors : Option JobErrors := none
  duration : Option Nat := none
  deriving Repr, DecidableEq

/-- A persisted job record (the fields `updateScrapingJob` touches). -/
structure Job where
  status : JobStatus
  itemsFound : Nat
  itemsProcessed : Nat
  errors : Option JobErrors
  duration : Option Nat
  startedAt : Option Int
  completedAt : Option Int
  deriving Repr, DecidableEq

/-- `JobManagementService.updateScrapingJob(jobId, updates)`: spread the
updates over the stored record; additionally set `startedAt` when the new
status is `running` and `completedAt` when it is `completed` or `failed`.
There is no guard on the current status: the update is applied whatever
state the job is in. -/
def updateScrapingJob (job : Job) (u : JobUpdateData) (now : Int) : Job :=
  { status := u.status.getD job.status
    itemsFound := u.itemsFound.getD job.itemsFound
    itemsProcessed := u.itemsProcessed.getD job.itemsProcessed
    errors := match u.errors with
      | some e => some e
      | none => job.errors
    duration := match u.duration with
      | some d => some d
      | none => job.duration
    startedAt := if u.status = some .running then some now else job.startedAt
    completedAt :=
      if u.status = some .completed ∨ u.status = some .failed then some now
      else job.completedAt }

/-- The job record as created by `createScrapingJob(source, 'pending', config)`:
`pending`, zero counters, no errors, no timestamps. -/
def initialJob : Job :=
  { status := .pending, itemsFound := 0, itemsProcessed := 0, errors := none,
    duration := none, startedAt := none, completedAt := none }

/-! ## Orchestrator (`ScrapingJobService.processScrapingJob`) -/

/-- Observable events of one background job run, in program order. -/
inductive Ev where
  /-- a `jobManagementService.updateScrapingJob(jobId, u)` call -/
  | update (u : JobUpdateData)
  /-- the crawl loop began the iteration for page `page` -/
  | visit (page : Nat)
  /-- `exporter.exportProperties(pageProperties)` was invoked on destination `dest` -/
  | exportAttempt (dest : String)
  /-- an exporter threw: the failure was logged with the destination
      identifier and the job id (`logScrapingEvent('error', ...)`) -/
  | exportErrLog (dest : String) (jobId : String)
  /-- `ScraperUtils.sleep(ms)` -/
  | sleep (ms : Nat)
  /-- a page iteration threw and was caught (`Failed to scrape page`) -/
  | pageFail (page : Nat)
  /-- `scraper.cleanup()` was invoked (in the `finally` block) -/
  | cleanupCall
  deriving Repr, DecidableEq

/-- An exporter as the fan-out sees it: its type identifier
(`getExporterType()`) and the outcome of `exportProperties` on a batch.
Records are opaque to the orchestrator; they are embedded as `Nat`. -/
structure Exporter where
  name : String
  run : List Nat → Except String Unit

/-- The external collaborators of one `processScrapingJob` run: the two
registry resolutions, the adapter's operations, and the wall clock used
for the error timestamp.  Each `Except` is the observed outcome of the
corresponding awaited call (`.error` = the call threw). -/
structure Env where
  resolveExporters : Except String (List Exporter)
  resolveScraper : Except String Unit
  initRes : Except String Unit
  totalPagesRes : Except String Nat
  scrapePage : Nat → Except String (List Nat)
  cleanupRes : Except String Unit
  nowIso : String

/-- `ScrapingJobService.exportData(jobId, properties, exporters)`: invoke
each exporter's `exportProperties` in list order; a throw is caught and
logged with the destination identifier and the job id, and iteration
continues.  Nothing is rethrown. -/
def exportData (jobId : String) (props : List Nat) (exps : List Exporter) :
    List Ev :=
  exps.flatMap fun ex =>
    Ev.exportAttempt ex.name ::
      (match ex.run props with
       | .ok _ => []
       | .error _ => [Ev.exportErrLog ex.name jobId])

/-- Result of the crawl loop: its events and the accumulated
`totalProperties`. -/
structure LoopOut where
  events : List Ev
  total : Nat
  deriving Repr, DecidableEq

/-- The pagination crawl loop of `processScrapingJob`, from page `pageNum`:
`for (let pageNum = start; pageNum <= totalPages && (pageNum - start + 1 <= limit); pageNum++)`.
Each iteration scrapes the page (any throw is caught and the loop
continues), accumulates the count, fans the records out, and sleeps
3000 ms when `pageNum < totalPages`.  `fuel` bounds the recursion;
`totalPages + 1 - pageNum` is always sufficient. -/
def crawlGo (env : Env) (jobId : String) (exps : List Exporter)
    (totalPages limit start : Nat) : Nat → Nat → LoopOut
  | 0, _ => ⟨[], 0⟩
  | fuel + 1, pageNum =>
    if pageNum ≤ totalPages ∧ (pageNum : Int) - (start : Int) + 1 ≤ (limit : Int) then
      match env.scrapePage pageNum with
      | .ok props =>
        let rest := crawlGo env jobId exps totalPages limit start fuel (pageNum + 1)
        ⟨Ev.visit pageNum :: (exportData jobId props exps ++
            (if pageNum < totalPages then [Ev.sleep 3000] else []) ++ rest.events),
         props.length + rest.total⟩
      | .error _ =>
        let rest := crawlGo env jobId exps totalPages limit start fuel (pageNum + 1)
        ⟨Ev.visit pageNum :: Ev.pageFail pageNum :: rest.events, rest.total⟩
    else ⟨[], 0⟩

/-- The crawl loop started at `start`. -/
def crawlLoop (env : Env) (jobId : String) (exps : List Exporter)
    (totalPages limit start : Nat) : LoopOut :=
  crawlGo env jobId exps totalPages limit start (totalPages + 1 - start) start

/-- The catch block of `processScrapingJob`: mark the job `failed` with the
captured message and an ISO timestamp. -/
def catchEvs (env : Env) (e : String) : List Ev :=
  [Ev.update { status := some .failed, errors := some ⟨e, env.nowIso⟩ }]

/-- `ScrapingJobService.processScrapingJob(jobId, scrapingJob)`: resolve the
exporters, then the scraper (both before the `try`; a throw here skips
everything, including cleanup); then mark the job `running`, initialize the
scraper, get `totalPages`, run the crawl loop and mark the job `completed`
— any throw up to the loop is caught and marks the job `failed`; the
`finally` block invokes `scraper.cleanup()`, whose own error (if any)
escapes the routine.  Returns the event trace and the error escaping the
routine, if any. -/
def processScrapingJob (env : Env) (jobId : String) (start limit : Nat) :
    List Ev × Option String :=
  match env.resolveExporters with
  | .error e => ([], some e)
  | .ok exps =>
    match env.resolveScraper with
    | .error e => ([], some e)
    | .ok _ =>
      let tryEvs : List Ev :=
        Ev.update { status := some .running } ::
          (match env.initRes with
           | .error e => catchEvs env e
           | .ok _ =>
             match env.totalPagesRes with
             | .error e => catchEvs env e
             | .ok totalPages =>
               let out := crawlLoop env jobId exps totalPages limit start
               out.events ++
                 [Ev.update { status := some .completed,
                              itemsFound := some out.total,
                              itemsProcessed := some out.total }])
      (tryEvs ++ [Ev.cleanupCall],
       match env.cleanupRes with
       | .ok _ => none
       | .error e => some e)

/-- The status updates issued during a run, in order. -/
def updatesOf (evs : List Ev) : List JobUpdateData :=
  evs.filterMap fun e =>
    match e with
    | .update u => some u
    | _ => none

/-- The pages visited (loop iterations begun) during a run, in order. -/
def visitsOf (evs : List Ev) : List Nat :=
  evs.filterMap fun e =>
    match e with
    | .visit p => some p
    | _ => none

/-- The destinations whose `exportProperties` was invoked, in order. -/
def exportAttemptsOf (evs : List Ev) : List String :=
  evs.filterMap fun e =>
    match e with
    | .exportAttempt d => some d
    | _ => none

/-- Number of sleeps in a trace. -/
def sleepCount (evs : List Ev) : Nat :=
  evs.countP fun e =>
    match e with
    | .sleep _ => true
    | _ => false

/-- Number of `scraper.cleanup()` invocations in a trace. -/
def cleanupCount (evs : List Ev) : Nat :=
  evs.countP fun e =>
    match e with
    | .cleanupCall => true
    | _ => false

/-- The persisted job record after a run: the `pending` record created by
`createScrapingJob`, with the run's updates folded over it. -/
def finalJob (evs : List Ev) : Job :=
  (updatesOf evs).foldl (fun j u => updateScrapingJob j u 0) initialJob

/-! ## Running-job table (`ScrapingJobService.startBackgroundJob`) -/

/-- `this.runningJobs.set(jobId, jobPromise)` (a `Map` key is stored once). -/
def runningSet (table : List String) (jobId : String) : List String :=
  if jobId ∈ table then table else table ++ [jobId]

/-- `this.runningJobs.delete(jobId)` in `jobPromise.finally(...)` — runs
whether the promise fulfilled or rejected. -/
def runningDelete (table : List String) (jobId : String) : List String :=
  table.filter (· ≠ jobId)

/-- The running-job table once the background promise has settled: the entry
is added at start and removed unconditionally at settlement, regardless of
the run's outcome. -/
def tableAfterSettle (table : List String) (jobId : String) : List String :=
  runningDelete (runningSet table jobId) jobId

/-! ## Registries (`ScraperFactory` / `ExporterFactory`) -/

/-- `ExporterFactory.getExporter(type)`: keyed lookup; throws when no
exporter is registered for the type. -/
def getExporter (reg : List (String × Exporter)) (t : String) :
    Except String Exporter :=
  match reg.lookup t with
  | some ex => .ok ex
  | none => .error ("No exporter registered for type: " ++ t)

/-- `ExporterFactory.getExporters(types)`: `types.map(getExporter)` — the
first missing registration throws. -/
def getExporters (reg : List (String × Exporter)) (ts : List String) :
    Except String (List Exporter) :=
  ts.mapM (getExporter reg)

/-- `ScraperFactory.getScraper(websiteCode)`: keyed lookup; throws when no
scraper is registered for the code (otherwise it hands out
`scraperTemplate.copy()`, a fresh instance). -/
def getScraper (reg : List String) (websiteCode : String) :
    Except String Unit :=
  if websiteCode ∈ reg then .ok ()
  else .error ("No scraper registered for website code: " ++ websiteCode)

/-! ## BSD adapter total-page discovery (`BSDScraper.getTotalPages`) -/

/-- `BSDScraper.getTotalPages(listUrl)`.  When the browser is not
initialized, the guard throws (outside the `try`).  Otherwise the page is
loaded under `ScraperUtils.withRetry(..., 3, 'page loading')`; a failure of
all attempts (or of the pagination extraction) lands in the adapter's own
`catch`, which logs and returns 1 — it does not rethrow.  On success the
last pagination number is returned, defaulting to 1 when none is found.
`loadAttempt k` is the outcome of the `k`-th page-load attempt;
`pagination` is the parsed last pagination number, if any. -/
def bsdGetTotalPages (browserInit : Bool)
    (loadAttempt : Nat → Except String Unit) (pagination : Option Nat) :
    Except String Nat :=
  if browserInit = false then .error "Browser not initialized"
  else
    match (withRetry loadAttempt 3).result with
    | .error _ => .ok 1
    | .ok _ => .ok (pagination.getD 1)

/-! ## Database exporter (`DatabaseExporter.exportProperty`)

A representative subset of `PropertyDto` is embedded; the remaining
fields of the source record follow exactly the same `field || null`
copying pattern in both the `update` and the `create` branch and play no
role in the keying or in the update/create structure. -/

/-- The fields of a scraped record the embedding tracks.  `description`
and `price` exercise the `x || null` translation (`'' → null`,
`0 → null`). -/
structure PropertyDto where
  title : String
  description : Option String
  price : Nat
  address : String
  city : String
  area : Nat
  source : String
  sourceUrl : String
  scrapedAt : Nat
  deriving Repr, DecidableEq

/-- A row of the `scrapedProperties` table. -/
structure StoredProperty where
  id : String
  title : String
  description : Option String
  price : Option Nat
  address : String
  city : String
  area : Nat
  source : String
  sourceUrl : String
  scrapedAt : Nat
  isActive : Bool
  deriving Repr, DecidableEq

/-- JS `s || null` on an optional string: `undefined` and `''` both become
`null`. -/
def orNullStr (s : Option String) : Option String :=
  match s with
  | some t => if t = "" then none else some t
  | none => none

/-- JS `n || null` on a number: `0` becomes `null`. -/
def orNullNat (n : Nat) : Option Nat :=
  if n = 0 then none else some n

/-- The `update` branch of the upsert: overwrite every data field from the
incoming record; the key `sourceUrl` (and the row `id`) are untouched;
`isActive` is set. -/
def upsertUpdate (row : StoredProperty) (p : PropertyDto) : StoredProperty :=
  { row with
    title := p.title
    description := orNullStr p.description
    price := orNullNat p.price
    address := p.address
    city := p.city
    area := p.area
    source := p.source
    scrapedAt := p.scrapedAt
    isActive := true }

/-- The `create` branch of the upsert: a fresh row (`newId` stands for the
id Prisma generates). -/
def upsertCreate (newId : String) (p : PropertyDto) : StoredProperty :=
  { id := newId
    title := p.title
    description := orNullStr p.description
    price := orNullNat p.price
    address := p.address
    city := p.city
    area := p.area
    source := p.source
    sourceUrl := p.sourceUrl
    scrapedAt := p.scrapedAt
    isActive := true }

/-- `DatabaseExporter.exportProperty(propertyData)`: validate the required
fields (`!title || !address || !sourceUrl` throws), then
`prisma.scrapedProperties.upsert({ where: { sourceUrl }, update, create })`:
the row whose `sourceUrl` matches is overwritten, or a fresh row is
appended.  Returns the new store and the exported row's id. -/
def exportProperty (store : List StoredProperty) (newId : String)
    (p : PropertyDto) : Except String (List StoredProperty × String) :=
  if p.title = "" ∨ p.address = "" ∨ p.sourceUrl = "" then
    .error "Property missing required fields: title, address, or sourceUrl"
  else
    match store.find? (fun row => row.sourceUrl = p.sourceUrl) with
    | some existing =>
      .ok (store.map (fun row =>
             if row.sourceUrl = p.sourceUrl then upsertUpdate row p else row),
           existing.id)
    | none => .ok (store ++ [upsertCreate newId p], newId)

/-! ## Crawl loop lemmas -/

/-- The loop guard of the crawl, for `limit ≥ 1`, is a bound by the last
page `min totalPages (start + limit - 1)`. -/
theorem crawlCond_iff (totalPages limit start pageNum : Nat) (hl : 1 ≤ limit) :
    (pageNum ≤ totalPages ∧ (pageNum : Int) - (start : Int) + 1 ≤ (limit : Int))
      ↔ pageNum ≤ min totalPages (start + limit - 1) := by
  rw [Nat.le_min]
  omega

theorem visitsOf_append (l1 l2 : List Ev) :
    visitsOf (l1 ++ l2) = visitsOf l1 ++ visitsOf l2 :=
  List.filterMap_append _ _ _

theorem visitsOf_exportData (jobId : String) (props : List Nat)
    (exps : List Exporter) : visitsOf (exportData jobId props exps) = [] := by
  induction exps with
  | nil => rfl
  | cons ex rest ih =>
    have h : exportData jobId props (ex :: rest)
        = (Ev.exportAttempt ex.name ::
            (match ex.run props with
             | .ok _ => []
             | .error _ => [Ev.exportErrLog ex.name jobId]))
          ++ exportData jobId props rest := by
      simp [exportData, List.flatMap_cons]
    rw [h, visitsOf_append, ih]
    cases ex.run props <;> rfl

/-- The pages visited by the crawl loop started at `pageNum` are the
consecutive pages from `pageNum` up to `min totalPages (start + limit - 1)`,
whatever the per-page scrape outcomes. -/
theorem crawlGo_visits (env : Env) (jobId : String) (exps : List Exporter)
    (totalPages limit start : Nat) (hl : 1 ≤ limit) :
    ∀ fuel pageNum, totalPages + 1 - pageNum ≤ fuel →
      visitsOf (crawlGo env jobId exps totalPages limit start fuel pageNum).events
        = List.range' pageNum (min totalPages (start + limit - 1) + 1 - pageNum) := by
  intro fuel
  induction fuel with
  | zero =>
    intro pageNum hf
    have h0 : min totalPages (start + limit - 1) + 1 - pageNum = 0 := by
      have := Nat.min_le_left totalPages (start + limit - 1)
      omega
    simp [crawlGo, visitsOf, h0]
  | succ f ih =>
    intro pageNum hf
    by_cases hc : pageNum ≤ totalPages ∧ (pageNum : Int) - (start : Int) + 1 ≤ (limit : Int)
    · have hle : pageNum ≤ min totalPages (start + limit - 1) :=
        (crawlCond_iff totalPages limit start pageNum hl).mp hc
      have hrec := ih (pageNum + 1) (by omega)
      have hn : min totalPages (start + limit - 1) + 1 - pageNum
          = (min totalPages (start + limit - 1) + 1 - (pageNum + 1)) + 1 := by omega
      rw [hn, List.range'_succ]
      rw [crawlGo, if_pos hc]
      cases hsp : env.scrapePage pageNum with
      | ok props =>
        simp only [visitsOf, List.filterMap_cons, List.filterMap_append]
        rw [show (List.filterMap (fun e => match e with | .visit p => some p | _ => none)
              (exportData jobId props exps)) = [] from visitsOf_exportData jobId props exps]
        have hs : visitsOf (if pageNum < totalPages then [Ev.sleep 3000] else []) = [] := by
          split <;> rfl
        simp only [visitsOf] at hs hrec
        rw [hs]
        simp only [List.nil_append]
        rw [hrec]
      | error e =>
        simp only [visitsOf, List.filterMap_cons]
        simp only [visitsOf] at hrec
        rw [hrec]
    · have hgt : ¬ pageNum ≤ min totalPages (start + limit - 1) := fun h =>
        hc ((crawlCond_iff totalPages limit start pageNum hl).mpr h)
      have h0 : min totalPages (start + limit - 1) + 1 - pageNum = 0 := by omega
      rw [crawlGo, if_neg hc]
      simp [visitsOf, h0]

/-- Shape of a `processScrapingJob` run in which both registry resolutions,
the adapter initialization and the total-page discovery succeed. -/
theorem processScrapingJob_ok (env : Env) (jobId : String) (start limit : Nat)
    (exps : List Exporter) (totalPages : Nat)
    (he : env.resolveExporters = .ok exps) (hs : env.resolveScraper = .ok ())
    (hi : env.initRes = .ok ()) (ht : env.totalPagesRes = .ok totalPages) :
    processScrapingJob env jobId start limit =
      (Ev.update { status := some .running } ::
        ((crawlLoop env jobId exps totalPages limit start).events ++
          [Ev.update { status := some .completed,
                       itemsFound := some (crawlLoop env jobId exps totalPages limit start).total,
                       itemsProcessed := some (crawlLoop env jobId exps totalPages limit start).total }]
          ++ [Ev.cleanupCall]),
       match env.cleanupRes with
       | .ok _ => none
       | .error e => some e) := by
  unfold processScrapingJob
  rw [he, hs, hi, ht]
  simp only [List.cons_append]

/-- C1.  For every `(totalPages, start, limit)` with `start ≥ 1`,
`limit ≥ 1` and `start ≤ totalPages`, and every environment in which the
resolutions, the initialization and the total-page discovery succeed, the
orchestrator's crawl loop visits exactly the consecutive pages
`start, …, min totalPages (start + limit - 1)` — that is,
`min totalPages (start + limit - 1) - start + 1` pages, in strictly
ascending order — whatever the per-page scrape and export outcomes. -/
theorem crawl_loop_pages_c1 (env : Env) (jobId : String) (exps : List Exporter)
    (totalPages start limit : Nat)
    (he : env.resolveExporters = .ok exps) (hs : env.resolveScraper = .ok ())
    (hi : env.initRes = .ok ()) (ht : env.totalPagesRes = .ok totalPages)
    (h1 : 1 ≤ start) (h2 : 1 ≤ limit) (h3 : start ≤ totalPages) :
    visitsOf (processScrapingJob env jobId start limit).1
        = List.range' start (min totalPages (start + limit - 1) - start + 1)
      ∧ (visitsOf (processScrapingJob env jobId start limit).1).length
        = min totalPages (start + limit - 1) - start + 1
      ∧ (visitsOf (processScrapingJob env jobId start limit).1).Pairwise (· < ·) := by
  rw [processScrapingJob_ok env jobId start limit exps totalPages he hs hi ht]
  have hv : visitsOf (Ev.update { status := some .running } ::
      ((crawlLoop env jobId exps totalPages limit start).events ++
        [Ev.update { status := some .completed,
                     itemsFound := some (crawlLoop env jobId exps totalPages limit start).total,
                     itemsProcessed := some (crawlLoop env jobId exps totalPages limit start).total }]
        ++ [Ev.cleanupCall]))
      = visitsOf (crawlLoop env jobId exps totalPages limit start).events := by
    simp only [visitsOf, List.filterMap_cons, List.filterMap_append]
    simp
  have hloop : visitsOf (crawlLoop env jobId exps totalPages limit start).events
      = List.range' start (min totalPages (start + limit - 1) + 1 - start) :=
    crawlGo_visits env jobId exps totalPages limit start h2
      (totalPages + 1 - start) start (le_refl _)
  have hmin : start ≤ min totalPages (start + limit - 1) := by
    rw [Nat.le_min]; omega
  have hn : min totalPages (start + limit - 1) + 1 - start
      = min totalPages (start + limit - 1) - start + 1 := by omega
  refine ⟨?_, ?_, ?_⟩
  · rw [hv, hloop, hn]
  · rw [hv, hloop, hn, List.length_range']
  · rw [hv, hloop]
    exact List.pairwise_lt_range' _ _

/-- A concrete healthy environment: registrations resolve, the browser
initializes, 5 total pages are discovered, every page scrape succeeds
with an empty record list, cleanup succeeds. -/
def envA : Env :=
  { resolveExporters := .ok []
    resolveScraper := .ok ()
    initRes := .ok ()
    totalPagesRes := .ok 5
    scrapePage := fun _ => .ok []
    cleanupRes := .ok ()
    nowIso := "2026-01-01T00:00:00.000Z" }

/-- Witness for C1: with `totalPages = 5`, `start = 2`, `limit = 2` the job
fetches pages 2 and 3 and never attempts pages 4 or 5. -/
theorem crawl_loop_pages_c1_witness :
    visitsOf (processScrapingJob envA "job-1" 2 2).1 = [2, 3]
      ∧ 4 ∉ visitsOf (processScrapingJob envA "job-1" 2 2).1
      ∧ 5 ∉ visitsOf (processScrapingJob envA "job-1" 2 2).1 := by
  have h := crawl_loop_pages_c1 envA "job-1" [] 5 2 2 rfl rfl rfl rfl
    (by decide) (by decide) (by decide)
  have hv : visitsOf (processScrapingJob envA "job-1" 2 2).1 = [2, 3] := by
    rw [h.1]; rfl
  exact ⟨hv, by rw [hv]; decide, by rw [hv]; decide⟩

/-- C2.  With `maxRetries = 3` and an operation failing on every
invocation, `withRetry` invokes the operation exactly 3 times, sleeps
`min(1000·2⁰, 10000) = 1000` ms and then `min(1000·2¹, 10000) = 2000` ms
after the first two failures and nothing after the final attempt, and the
error finally raised is the third attempt's error. -/
theorem retry_executor_c2 (E A : Type) (errs : Nat → E) :
    withRetry (A := A) (fun k => .error (errs k)) 3 =
      { result := .error (some (errs 3)), invocations := 3,
        delays := [backoffDelay 1, backoffDelay 2] }
      ∧ backoffDelay 1 = 1000 ∧ backoffDelay 2 = 2000 :=
  ⟨rfl, rfl, rfl⟩

/-! ## Rate limiter lemmas -/

/-- Final state after a sequence of `waitIfNeeded` calls (clock advanced by
each gap before the corresponding call). -/
def foldCalls (limit : Nat) (gaps : List Nat) (s : RLState) : RLState :=
  match gaps with
  | [] => s
  | g :: rest =>
    foldCalls limit rest ((waitIfNeeded limit ⟨s.requests, s.now + (g : Int)⟩).1)

theorem min?_replicate (a : Int) : ∀ n : Nat, 1 ≤ n →
    (List.replicate n a).min? = some a := by
  intro n
  induction n with
  | zero => omega
  | succ k ih =>
    intro _
    rw [List.replicate_succ, List.min?_cons]
    cases k with
    | zero => simp
    | succ j =>
      rw [ih (by omega)]
      simp

theorem countP_lt_length_of_mem (l : List Int) (p : Int → Bool) (a : Int)
    (ha : a ∈ l) (hpa : p a = false) : l.countP p < l.length := by
  induction l with
  | nil => cases ha
  | cons b rest ih =>
    rw [List.countP_cons, List.length_cons]
    have hble := List.countP_le_length (p := p) (l := rest)
    rcases List.mem_cons.mp ha with rfl | hmem
    · rw [hpa]
      simp only [Bool.false_eq_true, if_false]
      omega
    · have := ih hmem
      by_cases hb : p b = true
      · rw [if_pos hb]; omega
      · rw [if_neg hb]; omega

theorem windowCount_append (l1 l2 : List Int) (t : Int) :
    windowCount (l1 ++ l2) t = windowCount l1 t + windowCount l2 t := by
  simp [windowCount, List.filter_append]

/-- Every timestamp recorded after a `waitIfNeeded` call lies inside the
trailing 60-second window of the call time: older ones were purged, and the
new one is the call time itself. -/
theorem waitIfNeeded_purges (limit : Nat) (s : RLState) :
    ∀ ts ∈ ((waitIfNeeded limit s).1).requests, s.now - 60000 < ts := by
  intro ts hts
  have hmem : ts ∈ s.requests.filter (fun x => s.now - 60000 < x) ++ [s.now] := by
    unfold waitIfNeeded at hts
    dsimp only at hts
    split at hts
    · split at hts <;> exact hts
    · exact hts
  rcases List.mem_append.mp hmem with hk | hn
  · exact of_decide_eq_true (List.mem_filter.mp hk).2
  · have : ts = s.now := List.mem_singleton.mp hn
    omega

/-- The duration slept by `waitIfNeeded` is never negative, and is zero
whenever fewer than `limit` timestamps survive the purge. -/
theorem waitIfNeeded_wait_nonneg (limit : Nat) (s : RLState) :
    0 ≤ (waitIfNeeded limit s).2
      ∧ ((s.requests.filter (fun ts => s.now - 60000 < ts)).length < limit →
          (waitIfNeeded limit s).2 = 0) := by
  constructor
  · unfold waitIfNeeded
    dsimp only
    split
    · split <;> dsimp only <;> omega
    · dsimp only
      omega
  · intro hlt
    unfold waitIfNeeded
    dsimp only
    rw [if_neg (by omega)]

/-- A call below the limit records its timestamp and completes immediately:
from `j < limit` stamps all equal to the call time `t0`. -/
theorem waitIfNeeded_below (limit j : Nat) (t0 : Int) (hj : j < limit) :
    waitIfNeeded limit ⟨List.replicate j t0, t0⟩
      = (⟨List.replicate (j + 1) t0, t0⟩, 0) := by
  unfold waitIfNeeded
  dsimp only
  have hf : (List.replicate j t0).filter (fun ts => t0 - 60000 < ts)
      = List.replicate j t0 := by
    rw [List.filter_replicate]
    rw [if_pos (by simp)]
  rw [hf, List.length_replicate, if_neg (by omega), List.replicate_succ' j t0]

/-- A call arriving when `limit` stamps (all at time `t0`) are in the window
blocks for exactly 60000 ms — until the oldest stamp is 60 seconds old —
and then records its timestamp. -/
theorem waitIfNeeded_at_limit (limit : Nat) (t0 : Int) (hl : 1 ≤ limit) :
    waitIfNeeded limit ⟨List.replicate limit t0, t0⟩
      = (⟨List.replicate limit t0 ++ [t0], t0 + 60000⟩, 60000) := by
  unfold waitIfNeeded
  dsimp only
  have hf : (List.replicate limit t0).filter (fun ts => t0 - 60000 < ts)
      = List.replicate limit t0 := by
    rw [List.filter_replicate]
    rw [if_pos (by simp)]
  rw [hf, List.length_replicate, if_pos (le_refl _), min?_replicate t0 limit hl]
  have h60 : t0 + 60000 - t0 = 60000 := by omega
  rw [Option.getD_some, h60, if_pos (by omega)]

/-- One `waitIfNeeded` step keeps the trailing-window census at or below the
configured limit: if the window at the previous completion time held at
most `limit` stamps, so does the window at this call's completion time. -/
theorem windowCount_step (limit : Nat) (reqs : List Int) (t t' : Int)
    (hle : t ≤ t') (h : windowCount reqs t ≤ limit) :
    windowCount ((waitIfNeeded limit ⟨reqs, t'⟩).1).requests
      ((waitIfNeeded limit ⟨reqs, t'⟩).1).now ≤ limit := by
  have hkept : (reqs.filter (fun ts => t' - 60000 < ts)).length ≤ limit := by
    have hmono : reqs.countP (fun ts => decide (t' - 60000 < ts))
        ≤ reqs.countP (fun ts => decide (t - 60000 < ts)) := by
      apply List.countP_mono_left
      intro a _ hp
      have := of_decide_eq_true hp
      exact decide_eq_true (by omega)
    rw [← List.countP_eq_length_filter]
    rw [windowCount, ← List.countP_eq_length_filter] at h
    omega
  unfold waitIfNeeded
  dsimp only
  by_cases hge : limit ≤ (reqs.filter (fun ts => t' - 60000 < ts)).length
  · rw [if_pos hge]
    have heq : (reqs.filter (fun ts => t' - 60000 < ts)).length = limit := by omega
    cases hmin : (reqs.filter (fun ts => t' - 60000 < ts)).min? with
    | none =>
      have hnil : reqs.filter (fun ts => t' - 60000 < ts) = [] :=
        List.min?_eq_none_iff.mp hmin
      rw [hnil] at heq
      simp only [Option.getD_none, hnil]
      rw [if_pos (by omega)]
      dsimp only
      simp only [List.nil_append]
      have hz : windowCount [t'] (t' + (t' + 60000 - t')) = 0 := by
        simp only [windowCount, List.filter, decide_eq_true_eq]
        norm_num
      rw [hz]
      omega
    | some m =>
      have hm : m ∈ reqs.filter (fun ts => t' - 60000 < ts) :=
        List.min?_mem (fun x y => min_choice x y) hmin
      have hmwin : t' - 60000 < m := by
        have := (List.mem_filter.mp hm).2
        exact of_decide_eq_true this
      simp only [Option.getD_some]
      rw [if_pos (by omega)]
      dsimp only
      rw [windowCount_append]
      have hnow : t' + (m + 60000 - t') = m + 60000 := by omega
      rw [hnow]
      have h1 : windowCount (reqs.filter (fun ts => t' - 60000 < ts)) (m + 60000)
          < limit := by
        rw [windowCount, ← List.countP_eq_length_filter]
        have hc := countP_lt_length_of_mem (reqs.filter (fun ts => t' - 60000 < ts))
          (fun ts => decide (m + 60000 - 60000 < ts)) m hm
          (decide_eq_false (by omega))
        omega
      have h2 : windowCount [t'] (m + 60000) ≤ 1 := by
        simp only [windowCount, List.filter]
        split <;> simp
      omega
  · rw [if_neg hge]
    dsimp only
    rw [windowCount_append]
    have h1 : windowCount (reqs.filter (fun ts => t' - 60000 < ts)) t'
        = (reqs.filter (fun ts => t' - 60000 < ts)).length := by
      rw [windowCount, ← List.countP_eq_length_filter]
      rw [List.countP_eq_length]
      intro a ha
      exact (List.mem_filter.mp ha).2
    have h2 : windowCount [t'] t' = 1 := by
      simp only [windowCount, List.filter, decide_eq_true_eq]
      norm_num
    omega

theorem foldCalls_append (limit : Nat) (g1 g2 : List Nat) (s : RLState) :
    foldCalls limit (g1 ++ g2) s = foldCalls limit g2 (foldCalls limit g1 s) := by
  induction g1 generalizing s with
  | nil => rfl
  | cons g rest ih =>
    rw [List.cons_append]
    simp only [foldCalls]
    exact ih _

/-- From a state with `j` stamps all at the current time `t0`, `k` further
calls in rapid succession (zero gaps) complete immediately while `j + k`
stays within the limit, each recording its stamp. -/
theorem foldCalls_rapid (limit : Nat) (t0 : Int) :
    ∀ k j, j + k ≤ limit →
      foldCalls limit (List.replicate k 0) ⟨List.replicate j t0, t0⟩
        = ⟨List.replicate (j + k) t0, t0⟩ := by
  intro k
  induction k with
  | zero =>
    intro j _
    simp [foldCalls]
  | succ m ih =>
    intro j hj
    rw [List.replicate_succ]
    simp only [foldCalls, Nat.cast_zero, add_zero]
    rw [waitIfNeeded_below limit j t0 (by omega)]
    have heq : j + (m + 1) = (j + 1) + m := by omega
    rw [heq]
    exact ih (j + 1) (by omega)

/-- None of the rapid calls below the limit blocks: each completes at the
shared arrival time `t0`. -/
theorem runCalls_rapid_now (limit : Nat) (t0 : Int) :
    ∀ k j, j + k ≤ limit →
      ∀ s' ∈ runCalls limit (List.replicate k 0) ⟨List.replicate j t0, t0⟩,
        s'.now = t0 := by
  intro k
  induction k with
  | zero =>
    intro j _ s' hs'
    simp [runCalls] at hs'
  | succ m ih =>
    intro j hj s' hs'
    rw [List.replicate_succ] at hs'
    simp only [runCalls, Nat.cast_zero, add_zero] at hs'
    rw [waitIfNeeded_below limit j t0 (by omega)] at hs'
    rcases List.mem_cons.mp hs' with rfl | hmem
    · rfl
    · exact ih (j + 1) (by omega) s' hmem

/-- The window invariant holds after every call of any call sequence,
provided it holds initially. -/
theorem runCalls_windowCount_le (limit : Nat) :
    ∀ (gaps : List Nat) (s : RLState),
      windowCount s.requests s.now ≤ limit →
      ∀ s' ∈ runCalls limit gaps s, windowCount s'.requests s'.now ≤ limit := by
  intro gaps
  induction gaps with
  | nil =>
    intro s _ s' hs'
    simp [runCalls] at hs'
  | cons g rest ih =>
    intro s hs s' hs'
    simp only [runCalls] at hs'
    have hstep : windowCount
        ((waitIfNeeded limit ⟨s.requests, s.now + (g : Int)⟩).1).requests
        ((waitIfNeeded limit ⟨s.requests, s.now + (g : Int)⟩).1).now ≤ limit :=
      windowCount_step limit s.requests s.now (s.now + (g : Int))
        (by have : (0 : Int) ≤ (g : Int) := Int.ofNat_nonneg g; omega) hs
    rcases List.mem_cons.mp hs' with rfl | hmem
    · exact hstep
    · exact ih _ hstep s' hmem

/-- C3.  The rate limiter with `requestsPerMinute = N`:
(i) every `waitIfNeeded` call first purges timestamps older than 60 s, so
every recorded timestamp lies in the trailing window of the call time;
(ii) the suspension is never negative, and absent whenever fewer than the
configured limit of timestamps survive the purge;
(iii) for `N + 1` calls in rapid succession (all arriving at `t0`): the
first `N` complete immediately at `t0`, leaving the stamps
`replicate N t0`, and the `(N+1)`-th blocks for exactly 60000 ms, resuming
at `t0 + 60000` — when the oldest of the prior `N` stamps is 60 seconds
old — before recording its own stamp;
(iv) starting from a fresh limiter, after any sequence of calls with any
gaps, the trailing 60-second window at each call's completion time holds
at most `N` recorded timestamps. -/
theorem rate_limiter_c3 (N : Nat) (t0 : Int) (gaps : List Nat) (hN : 1 ≤ N) :
    (∀ (limit : Nat) (s : RLState),
        ∀ ts ∈ ((waitIfNeeded limit s).1).requests, s.now - 60000 < ts)
      ∧ (∀ (limit : Nat) (s : RLState),
          0 ≤ (waitIfNeeded limit s).2
            ∧ ((s.requests.filter (fun ts => s.now - 60000 < ts)).length < limit →
                (waitIfNeeded limit s).2 = 0))
      ∧ (∀ s' ∈ runCalls N (List.replicate N 0) ⟨[], t0⟩, s'.now = t0)
      ∧ foldCalls N (List.replicate N 0) ⟨[], t0⟩ = ⟨List.replicate N t0, t0⟩
      ∧ waitIfNeeded N ⟨List.replicate N t0, t0⟩
          = (⟨List.replicate N t0 ++ [t0], t0 + 60000⟩, 60000)
      ∧ (∀ s' ∈ runCalls N gaps ⟨[], t0⟩, windowCount s'.requests s'.now ≤ N) := by
  refine ⟨waitIfNeeded_purges, waitIfNeeded_wait_nonneg, ?_, ?_,
    waitIfNeeded_at_limit N t0 hN, ?_⟩
  · intro s' hs'
    exact runCalls_rapid_now N t0 N 0 (by omega) s' hs'
  · have h := foldCalls_rapid N t0 N 0 (by omega)
    simpa using h
  · exact runCalls_windowCount_le N gaps ⟨[], t0⟩ (by simp [windowCount])

/-- Witness for C3 at `N = 2`, `t0 = 0`: two rapid calls pass through, the
third blocks until `60000`, and the window census stays at most 2. -/
theorem rate_limiter_c3_witness :
    foldCalls 2 (List.replicate 2 0) ⟨[], 0⟩ = ⟨List.replicate 2 (0 : Int), 0⟩
      ∧ waitIfNeeded 2 ⟨List.replicate 2 (0 : Int), 0⟩
          = (⟨List.replicate 2 (0 : Int) ++ [0], 0 + 60000⟩, 60000)
      ∧ ∀ s' ∈ runCalls 2 [0, 0, 0] ⟨[], 0⟩, windowCount s'.requests s'.now ≤ 2 := by
  have h := rate_limiter_c3 2 0 [0, 0, 0] (by decide)
  exact ⟨h.2.2.2.1, h.2.2.2.2.1, h.2.2.2.2.2⟩

/-! ## Export fan-out and lifecycle lemmas -/

/-- The fan-out only emits export-attempt and export-error-log events. -/
theorem exportData_shape (jobId : String) (props : List Nat)
    (exps : List Exporter) :
    ∀ e ∈ exportData jobId props exps,
      (∃ d, e = Ev.exportAttempt d) ∨ ∃ d j, e = Ev.exportErrLog d j := by
  induction exps with
  | nil => intro e he; cases he
  | cons ex rest ih =>
    intro e he
    have h : exportData jobId props (ex :: rest)
        = (Ev.exportAttempt ex.name ::
            (match ex.run props with
             | .ok _ => []
             | .error _ => [Ev.exportErrLog ex.name jobId]))
          ++ exportData jobId props rest := by
      simp [exportData, List.flatMap_cons]
    rw [h] at he
    rcases List.mem_append.mp he with hh | ht2
    · rcases List.mem_cons.mp hh with rfl | htail
      · exact Or.inl ⟨ex.name, rfl⟩
      · cases hrun : ex.run props with
        | ok v => rw [hrun] at htail; cases htail
        | error err =>
          rw [hrun] at htail
          exact Or.inr ⟨ex.name, jobId, List.mem_singleton.mp htail⟩
    · exact ih e ht2

/-- The crawl loop never issues a status update and never runs cleanup:
its events are page visits, export attempts/errors, sleeps and page
failures. -/
theorem crawlGo_shape (env : Env) (jobId : String) (exps : List Exporter)
    (totalPages limit start : Nat) :
    ∀ fuel pageNum,
      ∀ e ∈ (crawlGo env jobId exps totalPages limit start fuel pageNum).events,
        (∀ u, e ≠ Ev.update u) ∧ e ≠ Ev.cleanupCall := by
  intro fuel
  induction fuel with
  | zero => intro pageNum e he; cases he
  | succ f ih =>
    intro pageNum e he
    simp only [crawlGo] at he
    by_cases hc : pageNum ≤ totalPages ∧
        (pageNum : Int) - (start : Int) + 1 ≤ (limit : Int)
    · rw [if_pos hc] at he
      cases hsp : env.scrapePage pageNum with
      | ok props =>
        rw [hsp] at he
        dsimp only at he
        rcases List.mem_cons.mp he with rfl | hmem
        · exact ⟨fun u => by simp, by simp⟩
        · rcases List.mem_append.mp hmem with hmem2 | hrest
          · rcases List.mem_append.mp hmem2 with hexp | hsleep
            · rcases exportData_shape jobId props exps e hexp with ⟨d, rfl⟩ | ⟨d, j, rfl⟩
              · exact ⟨fun u => by simp, by simp⟩
              · exact ⟨fun u => by simp, by simp⟩
            · by_cases hlt : pageNum < totalPages
              · rw [if_pos hlt] at hsleep
                obtain rfl := List.mem_singleton.mp hsleep
                exact ⟨fun u => by simp, by simp⟩
              · rw [if_neg hlt] at hsleep
                cases hsleep
          · exact ih (pageNum + 1) e hrest
      | error err =>
        rw [hsp] at he
        dsimp only at he
        rcases List.mem_cons.mp he with rfl | hmem
        · exact ⟨fun u => by simp, by simp⟩
        · rcases List.mem_cons.mp hmem with rfl | hrest
          · exact ⟨fun u => by simp, by simp⟩
          · exact ih (pageNum + 1) e hrest
    · rw [if_neg hc] at he
      cases he

theorem updatesOf_crawlGo (env : Env) (jobId : String) (exps : List Exporter)
    (totalPages limit start fuel pageNum : Nat) :
    updatesOf (crawlGo env jobId exps totalPages limit start fuel pageNum).events
      = [] := by
  rw [updatesOf, List.filterMap_eq_nil_iff]
  intro e he
  rcases crawlGo_shape env jobId exps totalPages limit start fuel pageNum e he
    with ⟨hu, _⟩
  cases e with
  | update u => exact absurd rfl (hu u)
  | visit p => rfl
  | exportAttempt d => rfl
  | exportErrLog d j => rfl
  | sleep ms => rfl
  | pageFail p => rfl
  | cleanupCall => rfl

theorem cleanupCount_crawlGo (env : Env) (jobId : String) (exps : List Exporter)
    (totalPages limit start fuel pageNum : Nat) :
    cleanupCount (crawlGo env jobId exps totalPages limit start fuel pageNum).events
      = 0 := by
  rw [cleanupCount, List.countP_eq_zero]
  intro e he
  rcases crawlGo_shape env jobId exps totalPages limit start fuel pageNum e he
    with ⟨_, hcl⟩
  cases e with
  | update u => simp
  | visit p => simp
  | exportAttempt d => simp
  | exportErrLog d j => simp
  | sleep ms => simp
  | pageFail p => simp
  | cleanupCall => exact absurd rfl hcl

/-- The persisted record after a successful run: marked `running` then
`completed` with both counters set to the accumulated total; the error
field was never written. -/
theorem finalJob_ok (env : Env) (jobId : String) (start limit : Nat)
    (exps : List Exporter) (totalPages : Nat)
    (he : env.resolveExporters = .ok exps) (hs : env.resolveScraper = .ok ())
    (hi : env.initRes = .ok ()) (ht : env.totalPagesRes = .ok totalPages) :
    finalJob (processScrapingJob env jobId start limit).1 =
      { status := .completed,
        itemsFound := (crawlLoop env jobId exps totalPages limit start).total,
        itemsProcessed := (crawlLoop env jobId exps totalPages limit start).total,
        errors := none, duration := none,
        startedAt := some 0, completedAt := some 0 } := by
  rw [processScrapingJob_ok env jobId start limit exps totalPages he hs hi ht]
  rw [finalJob, updatesOf]
  simp only [List.filterMap_cons, List.filterMap_append]
  rw [show (List.filterMap (fun e => match e with | .update u => some u | _ => none)
        (crawlLoop env jobId exps totalPages limit start).events) = [] from
      updatesOf_crawlGo env jobId exps totalPages limit start _ _]
  simp only [List.filterMap_cons, List.filterMap_nil, List.nil_append,
    List.append_nil]
  rfl

theorem exportAttemptsOf_append (l1 l2 : List Ev) :
    exportAttemptsOf (l1 ++ l2) = exportAttemptsOf l1 ++ exportAttemptsOf l2 :=
  List.filterMap_append _ _ _

/-- The fan-out invokes every exporter's batch export, in list order,
whatever each call's outcome. -/
theorem exportAttemptsOf_exportData (jobId : String) (props : List Nat)
    (exps : List Exporter) :
    exportAttemptsOf (exportData jobId props exps) = exps.map Exporter.name := by
  induction exps with
  | nil => rfl
  | cons ex rest ih =>
    have h : exportData jobId props (ex :: rest)
        = (Ev.exportAttempt ex.name ::
            (match ex.run props with
             | .ok _ => []
             | .error _ => [Ev.exportErrLog ex.name jobId]))
          ++ exportData jobId props rest := by
      simp [exportData, List.flatMap_cons]
    rw [h, exportAttemptsOf_append, ih, List.map_cons]
    cases ex.run props <;> rfl

/-- A throwing exporter is logged with its destination identifier and the
job id. -/
theorem exportErrLog_mem (jobId : String) (props : List Nat)
    (exps : List Exporter) (ex : Exporter) (e : String)
    (hmem : ex ∈ exps) (herr : ex.run props = .error e) :
    Ev.exportErrLog ex.name jobId ∈ exportData jobId props exps := by
  induction exps with
  | nil => cases hmem
  | cons b rest ih =>
    have h : exportData jobId props (b :: rest)
        = (Ev.exportAttempt b.name ::
            (match b.run props with
             | .ok _ => []
             | .error _ => [Ev.exportErrLog b.name jobId]))
          ++ exportData jobId props rest := by
      simp [exportData, List.flatMap_cons]
    rw [h]
    rcases List.mem_cons.mp hmem with rfl | htail
    · apply List.mem_append_left
      rw [herr]
      exact List.mem_cons_of_mem _ (List.mem_singleton_self _)
    · exact List.mem_append_right _ (ih htail)

/-- C4.  For a job whose destination list resolves to exporters
`e₁, …, eₙ`: the fan-out invokes each exporter's batch export in list
order; a throwing exporter is caught and logged with its destination
identifier and the job id while the remaining exporters are still
invoked; and — whatever the export outcomes — the job still transitions
to `completed` and its persisted error field remains empty. -/
theorem export_fanout_c4 (env : Env) (jobId : String)
    (start limit totalPages : Nat) (exps : List Exporter)
    (he : env.resolveExporters = .ok exps) (hs : env.resolveScraper = .ok ())
    (hi : env.initRes = .ok ()) (ht : env.totalPagesRes = .ok totalPages) :
    (∀ props, exportAttemptsOf (exportData jobId props exps)
        = exps.map Exporter.name)
      ∧ (∀ props ex e, ex ∈ exps → ex.run props = .error e →
          Ev.exportErrLog ex.name jobId ∈ exportData jobId props exps)
      ∧ (finalJob (processScrapingJob env jobId start limit).1).status
          = .completed
      ∧ (finalJob (processScrapingJob env jobId start limit).1).errors = none := by
  refine ⟨fun props => exportAttemptsOf_exportData jobId props exps,
    fun props ex e hm herr => exportErrLog_mem jobId props exps ex e hm herr,
    ?_, ?_⟩
  · rw [finalJob_ok env jobId start limit exps totalPages he hs hi ht]
  · rw [finalJob_ok env jobId start limit exps totalPages he hs hi ht]

/-- A destination that always succeeds. -/
def expA : Exporter := { name := "database", run := fun _ => .ok () }

/-- A destination whose batch export always throws. -/
def expB : Exporter := { name := "json", run := fun _ => .error "EACCES" }

/-- Environment with destinations `[database, json]` where the second
throws, one page, one record. -/
def envB : Env :=
  { resolveExporters := .ok [expA, expB]
    resolveScraper := .ok ()
    initRes := .ok ()
    totalPagesRes := .ok 1
    scrapePage := fun _ => .ok [7]
    cleanupRes := .ok ()
    nowIso := "2026-01-01T00:00:00.000Z" }

/-- Witness for C4: both destinations invoked in order, the failure of the
second logged with its identifier and the job id, job `completed`, error
field empty. -/
theorem export_fanout_c4_witness :
    exportAttemptsOf (exportData "job-2" [7] [expA, expB])
        = ["database", "json"]
      ∧ Ev.exportErrLog "json" "job-2" ∈ exportData "job-2" [7] [expA, expB]
      ∧ (finalJob (processScrapingJob envB "job-2" 1 1).1).status = .completed
      ∧ (finalJob (processScrapingJob envB "job-2" 1 1).1).errors = none := by
  have h := export_fanout_c4 envB "job-2" 1 1 1 [expA, expB] rfl rfl rfl rfl
  exact ⟨h.1 [7],
    h.2.1 [7] expB "EACCES" (List.mem_cons_of_mem _ (List.mem_singleton_self _)) rfl,
    h.2.2.1, h.2.2.2⟩

/-! ## C5: terminal-state transitions -/

/-- A persisted job that has already completed. -/
def completedJob : Job :=
  { status := .completed, itemsFound := 5, itemsProcessed := 5, errors := none,
    duration := none, startedAt := some 1, completedAt := some 2 }

/-- Counterexample for C5: `updateScrapingJob` applies a status change to a
job already in the terminal state `completed` — the stored job does not
remain unchanged, it transitions back to `running` (and its `startedAt` is
even overwritten). -/
theorem terminal_update_c5_cex :
    (updateScrapingJob completedJob { status := some .running } 3).status
        = JobStatus.running
      ∧ updateScrapingJob completedJob { status := some .running } 3
          ≠ completedJob := by
  constructor
  · rfl
  · decide

/-- C5 as the code has it: `updateScrapingJob` has no terminal-state guard.
Any update carrying a status is applied unconditionally — also to a job in
a terminal state — and the call sets `startedAt`/`completedAt` according to
the new status alone. -/
theorem terminal_update_c5_amended (job : Job) (u : JobUpdateData)
    (now : Int) (s' : JobStatus)
    (hterm : job.status = .completed ∨ job.status = .failed)
    (hu : u.status = some s') :
    (updateScrapingJob job u now).status = s'
      ∧ (s' = .running → (updateScrapingJob job u now).startedAt = some now)
      ∧ ((s' = .completed ∨ s' = .failed) →
          (updateScrapingJob job u now).completedAt = some now) := by
  refine ⟨?_, ?_, ?_⟩
  · simp [updateScrapingJob, hu]
  · intro hrun
    subst hrun
    simp [updateScrapingJob, hu]
  · intro hcf
    have : u.status = some .completed ∨ u.status = some .failed := by
      rcases hcf with rfl | rfl
      · exact Or.inl hu
      · exact Or.inr hu
    simp only [updateScrapingJob]
    rw [if_pos this]

/-- Witness for C5 (amended): a `completed` job is moved to `running` by a
plain status update. -/
theorem terminal_update_c5_witness :
    (updateScrapingJob completedJob { status := some .running } 3).status
        = JobStatus.running
      ∧ (updateScrapingJob completedJob { status := some .running } 3).startedAt
        = some 3 := by
  have h := terminal_update_c5_amended completedJob { status := some .running }
    3 .running (Or.inl rfl) rfl
  exact ⟨h.1, h.2.1 rfl⟩

/-! ## C6: guaranteed cleanup -/

/-- C6 as the code has it: once the registries have resolved, the
`finally` block invokes `scraper.cleanup()` exactly once — whether the
crawl loop completed, partially failed, or initialization/total-page
discovery threw — but an error thrown by cleanup itself escapes the job
processing routine instead of being swallowed. -/
theorem cleanup_c6_amended (env : Env) (jobId : String) (start limit : Nat)
    (exps : List Exporter)
    (he : env.resolveExporters = .ok exps) (hs : env.resolveScraper = .ok ()) :
    cleanupCount (processScrapingJob env jobId start limit).1 = 1
      ∧ (env.cleanupRes = .ok () →
          (processScrapingJob env jobId start limit).2 = none)
      ∧ (∀ e, env.cleanupRes = .error e →
          (processScrapingJob env jobId start limit).2 = some e) := by
  unfold processScrapingJob
  rw [he, hs]
  dsimp only
  refine ⟨?_, ?_, ?_⟩
  · rw [cleanupCount, List.cons_append, List.countP_cons]
    cases hi : env.initRes with
    | error e => rfl
    | ok u =>
      cases ht : env.totalPagesRes with
      | error e => rfl
      | ok tp =>
        rw [List.countP_append, List.countP_append]
        have h0 := cleanupCount_crawlGo env jobId exps tp limit start
          (tp + 1 - start) start
        rw [cleanupCount] at h0
        rw [show (crawlLoop env jobId exps tp limit start).events
            = (crawlGo env jobId exps tp limit start (tp + 1 - start) start).events
          from rfl]
        rw [h0]
        rfl
  · intro hc
    rw [hc]
  · intro e hc
    rw [hc]

/-- Environment in which the run itself succeeds but releasing the browser
throws. -/
def envCleanupBoom : Env :=
  { resolveExporters := .ok []
    resolveScraper := .ok ()
    initRes := .ok ()
    totalPagesRes := .ok 1
    scrapePage := fun _ => .ok []
    cleanupRes := .error "Protocol error: Browser.close target closed"
    nowIso := "2026-01-01T00:00:00.000Z" }

/-- Counterexample for C6: an error thrown while releasing the adapter's
resources is re-raised out of `processScrapingJob` (the background promise
rejects with it) — it is not logged-and-swallowed as the claim states. -/
theorem cleanup_c6_cex :
    (processScrapingJob envCleanupBoom "job-4" 1 1).2
        = some "Protocol error: Browser.close target closed"
      ∧ cleanupCount (processScrapingJob envCleanupBoom "job-4" 1 1).1 = 1 := by
  constructor
  · rfl
  · rfl

/-- Witness for C6 (amended) on a healthy run: cleanup happens exactly
once and nothing escapes the routine. -/
theorem cleanup_c6_witness :
    cleanupCount (processScrapingJob envA "job-1" 2 2).1 = 1
      ∧ (processScrapingJob envA "job-1" 2 2).2 = none := by
  have h := cleanup_c6_amended envA "job-1" 2 2 [] rfl rfl
  exact ⟨h.1, h.2.1 rfl⟩

/-! ## C7: inter-page delay -/

theorem sleepCount_exportData (jobId : String) (props : List Nat)
    (exps : List Exporter) :
    sleepCount (exportData jobId props exps) = 0 := by
  rw [sleepCount, List.countP_eq_zero]
  intro e he
  rcases exportData_shape jobId props exps e he with ⟨d, rfl⟩ | ⟨d, j, rfl⟩ <;> simp

/-- Sleeps in the crawl loop, when every page scrape succeeds: one
3000 ms sleep after each visited page `p` with `p < totalPages` — the page
being the last visited one does not by itself suppress the delay. -/
theorem crawlGo_sleeps (env : Env) (jobId : String) (exps : List Exporter)
    (totalPages limit start : Nat) (hl : 1 ≤ limit) (htp : 1 ≤ totalPages)
    (hok : ∀ p, ∃ props, env.scrapePage p = .ok props) :
    ∀ fuel pageNum, totalPages + 1 - pageNum ≤ fuel →
      sleepCount (crawlGo env jobId exps totalPages limit start fuel pageNum).events
        = min (min totalPages (start + limit - 1)) (totalPages - 1) + 1 - pageNum := by
  intro fuel
  induction fuel with
  | zero =>
    intro pageNum hf
    have h0 : min (min totalPages (start + limit - 1)) (totalPages - 1) + 1 - pageNum
        = 0 := by omega
    rw [h0]
    rfl
  | succ f ih =>
    intro pageNum hf
    have hM1 := Nat.min_le_right (min totalPages (start + limit - 1)) (totalPages - 1)
    by_cases hc : pageNum ≤ totalPages ∧
        (pageNum : Int) - (start : Int) + 1 ≤ (limit : Int)
    · have hle : pageNum ≤ min totalPages (start + limit - 1) :=
        (crawlCond_iff totalPages limit start pageNum hl).mp hc
      obtain ⟨props, hsp⟩ := hok pageNum
      have hrec := ih (pageNum + 1) (by omega)
      simp only [crawlGo]
      rw [if_pos hc, hsp]
      dsimp only
      rw [sleepCount, List.countP_cons, List.countP_append, List.countP_append]
      rw [show (exportData jobId props exps).countP
            (fun e => match e with | Ev.sleep ms => true | _ => false) = 0 from
          sleepCount_exportData jobId props exps]
      rw [sleepCount] at hrec
      rw [hrec]
      by_cases hlt : pageNum < totalPages
      · rw [if_pos hlt]
        have hleM : pageNum ≤ min (min totalPages (start + limit - 1)) (totalPages - 1) :=
          Nat.le_min.mpr ⟨hle, by omega⟩
        simp only [List.countP_cons, List.countP_nil]
        norm_num
        omega
      · rw [if_neg hlt]
        have hpe : pageNum = totalPages := by omega
        simp only [List.countP_nil]
        norm_num
        omega
    · have hgt : ¬ pageNum ≤ min totalPages (start + limit - 1) := fun h =>
        hc ((crawlCond_iff totalPages limit start pageNum hl).mpr h)
      have h0 : min (min totalPages (start + limit - 1)) (totalPages - 1) + 1 - pageNum
          = 0 := by omega
      simp only [crawlGo]
      rw [if_neg hc, h0]
      rfl

/-- Counterexample for C7: with `totalPages = 5`, `start = 2`, `limit = 2`
(loop ends because the limit is reached) the run sleeps twice for two
visited pages — a delay IS slept after the last visited page (page 3,
which is `< totalPages`), contradicting "no delay after the last page the
job visits". -/
theorem interpage_delay_c7_cex :
    sleepCount (processScrapingJob envA "job-1" 2 2).1 = 2
      ∧ (visitsOf (processScrapingJob envA "job-1" 2 2).1).length = 2
      ∧ sleepCount (processScrapingJob envA "job-1" 2 2).1
          ≠ (visitsOf (processScrapingJob envA "job-1" 2 2).1).length - 1 := by
  refine ⟨rfl, rfl, by decide⟩

/-- C7 as the code has it: the 3000 ms inter-page delay follows every
successfully scraped page `p` with `p < totalPages`.  When the loop stops
because the `limit` is exhausted before `totalPages` is reached
(`start + limit - 1 < totalPages`), the delay is slept `limit` times — one
after every visited page, the last one included; only when the loop stops
at `totalPages` is the delay after the final page skipped, giving
`totalPages - start` sleeps. -/
theorem interpage_delay_c7_amended (env : Env) (jobId : String)
    (exps : List Exporter) (totalPages start limit : Nat)
    (he : env.resolveExporters = .ok exps) (hs : env.resolveScraper = .ok ())
    (hi : env.initRes = .ok ()) (ht : env.totalPagesRes = .ok totalPages)
    (h1 : 1 ≤ start) (h2 : 1 ≤ limit) (h3 : start ≤ totalPages)
    (hok : ∀ p, ∃ props, env.scrapePage p = .ok props) :
    sleepCount (processScrapingJob env jobId start limit).1
      = if start + limit - 1 < totalPages then limit else totalPages - start := by
  rw [processScrapingJob_ok env jobId start limit exps totalPages he hs hi ht]
  rw [sleepCount, List.countP_cons, List.countP_append, List.countP_append]
  have hloop := crawlGo_sleeps env jobId exps totalPages limit start h2
    (by omega) hok (totalPages + 1 - start) start (le_refl _)
  rw [sleepCount] at hloop
  rw [show (crawlLoop env jobId exps totalPages limit start).events
      = (crawlGo env jobId exps totalPages limit start
          (totalPages + 1 - start) start).events from rfl]
  rw [hloop]
  norm_num
  by_cases hcase : start + limit - 1 < totalPages
  · rw [if_pos hcase]
    omega
  · rw [if_neg hcase]
    omega

/-- Witness for C7 (amended): the run of the counterexample scenario has
exactly `limit = 2` sleeps. -/
theorem interpage_delay_c7_witness :
    sleepCount (processScrapingJob envA "job-1" 2 2).1 = 2 := by
  have h := interpage_delay_c7_amended envA "job-1" [] 5 2 2 rfl rfl rfl rfl
    (by decide) (by decide) (by decide) (fun p => ⟨[], rfl⟩)
  simpa using h

/-! ## C8: total-page discovery failure -/

/-- Shape of a run in which `getTotalPages` throws: the job is marked
`running`, then the catch block marks it `failed` with the captured
message and timestamp, and the `finally` block still runs cleanup. -/
theorem processScrapingJob_totalPages_err (env : Env) (jobId : String)
    (start limit : Nat) (exps : List Exporter) (e : String)
    (he : env.resolveExporters = .ok exps) (hs : env.resolveScraper = .ok ())
    (hi : env.initRes = .ok ()) (ht : env.totalPagesRes = .error e) :
    processScrapingJob env jobId start limit =
      ([Ev.update { status := some .running },
        Ev.update { status := some .failed, errors := some ⟨e, env.nowIso⟩ },
        Ev.cleanupCall],
       match env.cleanupRes with
       | .ok _ => none
       | .error e' => some e') := by
  unfold processScrapingJob
  rw [he, hs, hi, ht]
  simp [catchEvs]

/-- C8 as the code has it for the orchestrator: if the adapter's
`getTotalPages` throws, the job transitions to `failed` with the thrown
message and an ISO timestamp persisted in its error field, zero pages are
visited and no export is attempted. -/
theorem total_pages_failure_c8_amended (env : Env) (jobId : String)
    (start limit : Nat) (exps : List Exporter) (e : String)
    (he : env.resolveExporters = .ok exps) (hs : env.resolveScraper = .ok ())
    (hi : env.initRes = .ok ()) (ht : env.totalPagesRes = .error e) :
    (finalJob (processScrapingJob env jobId start limit).1).status = .failed
      ∧ (finalJob (processScrapingJob env jobId start limit).1).errors
          = some ⟨e, env.nowIso⟩
      ∧ visitsOf (processScrapingJob env jobId start limit).1 = []
      ∧ exportAttemptsOf (processScrapingJob env jobId start limit).1 = [] := by
  rw [processScrapingJob_totalPages_err env jobId start limit exps e he hs hi ht]
  refine ⟨rfl, rfl, rfl, rfl⟩

/-- Environment describing the spec's scenario "total-page discovery
exhausts its retries": the BSD adapter's page-load operation fails on
every attempt, and `getTotalPages` is whatever the adapter then returns. -/
def envRetryExhausted : Env :=
  { resolveExporters := .ok []
    resolveScraper := .ok ()
    initRes := .ok ()
    totalPagesRes := bsdGetTotalPages true (fun _ => .error "net::ERR_TIMED_OUT") none
    scrapePage := fun _ => .ok []
    cleanupRes := .ok ()
    nowIso := "2026-01-01T00:00:00.000Z" }

/-- Counterexample for C8: when total-page discovery exhausts its retries
(the retried page load fails all 3 attempts), `BSDScraper.getTotalPages`
does not throw — its own catch returns 1 — so the job does NOT transition
to `failed` and one page IS attempted: the run completes with page 1
visited. -/
theorem total_pages_failure_c8_cex :
    (withRetry (A := Unit) (fun _ => .error "net::ERR_TIMED_OUT") 3).invocations = 3
      ∧ bsdGetTotalPages true (fun _ => .error "net::ERR_TIMED_OUT") none = .ok 1
      ∧ (finalJob (processScrapingJob envRetryExhausted "job-3" 1 999).1).status
          = .completed
      ∧ visitsOf (processScrapingJob envRetryExhausted "job-3" 1 999).1 = [1] := by
  refine ⟨rfl, rfl, ?_, ?_⟩
  · rfl
  · rfl

/-- Environment in which `getTotalPages` does throw (the guard outside its
`try`: the browser was never initialized). -/
def envTpThrow : Env :=
  { resolveExporters := .ok []
    resolveScraper := .ok ()
    initRes := .ok ()
    totalPagesRes := bsdGetTotalPages false (fun _ => .ok ()) (some 7)
    scrapePage := fun _ => .ok []
    cleanupRes := .ok ()
    nowIso := "2026-01-01T00:00:00.000Z" }

/-- Witness for C8 (amended): a throwing `getTotalPages` fails the job
with the message and timestamp persisted, and nothing is visited or
exported. -/
theorem total_pages_failure_c8_witness :
    (finalJob (processScrapingJob envTpThrow "job-5" 1 999).1).status = .failed
      ∧ (finalJob (processScrapingJob envTpThrow "job-5" 1 999).1).errors
          = some ⟨"Browser not initialized", "2026-01-01T00:00:00.000Z"⟩
      ∧ visitsOf (processScrapingJob envTpThrow "job-5" 1 999).1 = []
      ∧ exportAttemptsOf (processScrapingJob envTpThrow "job-5" 1 999).1 = [] := by
  exact total_pages_failure_c8_amended envTpThrow "job-5" 1 999 []
    "Browser not initialized" rfl rfl rfl rfl

/-! ## C10: registry resolution failure -/

/-- C10.  If the job's website code or one of its exporter identifiers has
no registered implementation, `processScrapingJob` throws during registry
resolution, before the `try` block: no status update is ever issued — the
persisted job stays `pending` — no cleanup runs, the error escapes as the
background promise's rejection, and the `finally` attached by
`startBackgroundJob` still removes the job from the in-memory running-job
table. -/
theorem registry_resolution_c10 (env : Env) (jobId : String)
    (start limit : Nat) (table : List String) (e : String)
    (h : env.resolveExporters = .error e ∨
         (∃ exps, env.resolveExporters = .ok exps ∧ env.resolveScraper = .error e)) :
    (processScrapingJob env jobId start limit).1 = []
      ∧ (processScrapingJob env jobId start limit).2 = some e
      ∧ finalJob (processScrapingJob env jobId start limit).1 = initialJob
      ∧ (finalJob (processScrapingJob env jobId start limit).1).status = .pending
      ∧ cleanupCount (processScrapingJob env jobId start limit).1 = 0
      ∧ jobId ∉ tableAfterSettle table jobId := by
  have hrun : processScrapingJob env jobId start limit = ([], some e) := by
    rcases h with he | ⟨exps, he, hs⟩
    · unfold processScrapingJob
      rw [he]
    · unfold processScrapingJob
      rw [he, hs]
  rw [hrun]
  refine ⟨rfl, rfl, rfl, rfl, rfl, ?_⟩
  intro hmem
  have := List.mem_filter.mp hmem
  simp at this

/-- Environment whose destination list names an exporter type that was
never registered (empty registries). -/
def envMissing : Env :=
  { resolveExporters := getExporters [] ["database"]
    resolveScraper := getScraper ["BSD"] "BSD"
    initRes := .ok ()
    totalPagesRes := .ok 1
    scrapePage := fun _ => .ok []
    cleanupRes := .ok ()
    nowIso := "2026-01-01T00:00:00.000Z" }

/-- Witness for C10: an unregistered exporter type makes the background
task reject before any status update; the job record stays `pending` and
the running-job table no longer holds the job after settlement. -/
theorem registry_resolution_c10_witness :
    (processScrapingJob envMissing "job-6" 1 1).1 = []
      ∧ (processScrapingJob envMissing "job-6" 1 1).2
          = some "No exporter registered for type: database"
      ∧ (finalJob (processScrapingJob envMissing "job-6" 1 1).1).status = .pending
      ∧ "job-6" ∉ tableAfterSettle ["job-0"] "job-6" := by
  have h := registry_resolution_c10 envMissing "job-6" 1 1 ["job-0"]
    "No exporter registered for type: database" (Or.inl rfl)
  exact ⟨h.1, h.2.1, h.2.2.2.1, h.2.2.2.2.2⟩

/-! ## C9: database export idempotence -/

/-- The `update` branch rewrites rows in place: the number of rows whose
key matches the incoming record is unchanged. -/
theorem countP_upsert_map (store : List StoredProperty) (p : PropertyDto) :
    ((store.map (fun row =>
        if row.sourceUrl = p.sourceUrl then upsertUpdate row p else row)).countP
          (fun row => row.sourceUrl = p.sourceUrl))
      = store.countP (fun row => row.sourceUrl = p.sourceUrl) := by
  induction store with
  | nil => rfl
  | cons r rest ih =>
    simp only [List.map_cons, List.countP_cons, ih]
    by_cases hk : r.sourceUrl = p.sourceUrl
    · rw [if_pos hk]
      have : (upsertUpdate r p).sourceUrl = r.sourceUrl := rfl
      simp [this, hk]
    · rw [if_neg hk]

/-- Every row matching the key after the `update` branch carries the
incoming record's field values. -/
theorem mem_upsert_map_keyed (store : List StoredProperty) (p : PropertyDto)
    (row : StoredProperty)
    (hrow : row ∈ store.map (fun r =>
        if r.sourceUrl = p.sourceUrl then upsertUpdate r p else r)) :
    row.sourceUrl = p.sourceUrl →
      row.title = p.title ∧ row.description = orNullStr p.description
        ∧ row.price = orNullNat p.price ∧ row.address = p.address
        ∧ row.city = p.city ∧ row.area = p.area
        ∧ row.source = p.source ∧ row.scrapedAt = p.scrapedAt := by
  intro hkey
  obtain ⟨orig, horig, heq⟩ := List.mem_map.mp hrow
  by_cases hk : orig.sourceUrl = p.sourceUrl
  · rw [if_pos hk] at heq
    rw [← heq]
    exact ⟨rfl, rfl, rfl, rfl, rfl, rfl, rfl, rfl⟩
  · rw [if_neg hk] at heq
    rw [← heq] at hkey
    exact absurd hkey hk

/-- One `exportProperty` call on a store holding at most one row with the
record's key: it succeeds, leaves exactly one row with that key, and that
row carries the record's field values. -/
theorem exportProperty_upsert (store : List StoredProperty) (newId : String)
    (p : PropertyDto)
    (hv : ¬(p.title = "" ∨ p.address = "" ∨ p.sourceUrl = ""))
    (hkey : store.countP (fun row => row.sourceUrl = p.sourceUrl) ≤ 1) :
    ∃ s1 r1, exportProperty store newId p = .ok (s1, r1)
      ∧ s1.countP (fun row => row.sourceUrl = p.sourceUrl) = 1
      ∧ ∀ row ∈ s1, row.sourceUrl = p.sourceUrl →
          row.title = p.title ∧ row.description = orNullStr p.description
            ∧ row.price = orNullNat p.price ∧ row.address = p.address
            ∧ row.city = p.city ∧ row.area = p.area
            ∧ row.source = p.source ∧ row.scrapedAt = p.scrapedAt := by
  unfold exportProperty
  rw [if_neg hv]
  cases hf : store.find? (fun row => row.sourceUrl = p.sourceUrl) with
  | some existing =>
    refine ⟨_, existing.id, rfl, ?_, ?_⟩
    · rw [countP_upsert_map]
      have hmem := List.mem_of_find?_eq_some hf
      have hkey2 := List.find?_some hf
      have hpos : 0 < store.countP (fun row => row.sourceUrl = p.sourceUrl) :=
        List.countP_pos_iff.mpr ⟨existing, hmem, hkey2⟩
      omega
    · intro row hrow
      exact mem_upsert_map_keyed store p row hrow
  | none =>
    refine ⟨_, newId, rfl, ?_, ?_⟩
    · rw [List.countP_append]
      have h0 : store.countP (fun row => row.sourceUrl = p.sourceUrl) = 0 := by
        rw [List.countP_eq_zero]
        exact List.find?_eq_none.mp hf
      rw [h0]
      simp [upsertCreate]
    · intro row hrow hkeyrow
      rcases List.mem_append.mp hrow with hold | hnew
      · have := List.find?_eq_none.mp hf row hold
        simp only [hkeyrow] at this
        simp at this
      · obtain rfl := List.mem_singleton.mp hnew
        exact ⟨rfl, rfl, rfl, rfl, rfl, rfl, rfl, rfl⟩

/-- C9.  The database exporter's single-record export is an idempotent
upsert keyed on `sourceUrl`: exporting two records with the same key into
a store that respects the key's uniqueness leaves exactly one stored row
with that key, carrying the later record's field values. -/
theorem db_export_idempotent_c9 (store : List StoredProperty)
    (id1 id2 u : String) (p1 p2 : PropertyDto)
    (hu1 : p1.sourceUrl = u) (hu2 : p2.sourceUrl = u)
    (hv1 : ¬(p1.title = "" ∨ p1.address = "" ∨ p1.sourceUrl = ""))
    (hv2 : ¬(p2.title = "" ∨ p2.address = "" ∨ p2.sourceUrl = ""))
    (hkey : store.countP (fun row => row.sourceUrl = u) ≤ 1) :
    ∃ s1 r1 s2 r2,
      exportProperty store id1 p1 = .ok (s1, r1)
        ∧ exportProperty s1 id2 p2 = .ok (s2, r2)
        ∧ s2.countP (fun row => row.sourceUrl = u) = 1
        ∧ ∀ row ∈ s2, row.sourceUrl = u →
            row.title = p2.title ∧ row.description = orNullStr p2.description
              ∧ row.price = orNullNat p2.price ∧ row.address = p2.address
              ∧ row.city = p2.city ∧ row.area = p2.area
              ∧ row.source = p2.source ∧ row.scrapedAt = p2.scrapedAt := by
  subst hu2
  obtain ⟨s1, r1, hexp1, hcount1, _⟩ :=
    exportProperty_upsert store id1 p1 hv1 (by simpa only [hu1] using hkey)
  have hcount1' : s1.countP (fun row => row.sourceUrl = p2.sourceUrl) = 1 := by
    simpa only [hu1] using hcount1
  obtain ⟨s2, r2, hexp2, hcount2, hfields⟩ :=
    exportProperty_upsert s1 id2 p2 hv2 (le_of_eq hcount1')
  exact ⟨s1, r1, s2, r2, hexp1, hexp2, hcount2, hfields⟩

/-- A concrete scraped record. -/
def pDto1 : PropertyDto :=
  { title := "Room A", description := some "old", price := 100,
    address := "1 Main St", city := "HCM", area := 20,
    source := "batdongsan.com.vn", sourceUrl := "https://example.com/p/1",
    scrapedAt := 1 }

/-- A later scrape of the same listing (same `sourceUrl`, newer values). -/
def pDto2 : PropertyDto :=
  { title := "Room A v2", description := none, price := 120,
    address := "1 Main St", city := "HCM", area := 21,
    source := "batdongsan.com.vn", sourceUrl := "https://example.com/p/1",
    scrapedAt := 2 }

/-- Witness for C9: exporting `pDto1` then `pDto2` into an empty store
leaves exactly one row for the shared `sourceUrl`, with `pDto2`'s values. -/
theorem db_export_idempotent_c9_witness :
    ∃ s1 r1 s2 r2,
      exportProperty [] "id-1" pDto1 = .ok (s1, r1)
        ∧ exportProperty s1 "id-2" pDto2 = .ok (s2, r2)
        ∧ s2.countP (fun row => row.sourceUrl = "https://example.com/p/1") = 1
        ∧ ∀ row ∈ s2, row.sourceUrl = "https://example.com/p/1" →
            row.title = pDto2.title ∧ row.description = orNullStr pDto2.description
              ∧ row.price = orNullNat pDto2.price ∧ row.address = pDto2.address
              ∧ row.city = pDto2.city ∧ row.area = pDto2.area
              ∧ row.source = pDto2.source ∧ row.scrapedAt = pDto2.scrapedAt :=
  db_export_idempotent_c9 [] "id-1" "id-2" "https://example.com/p/1" pDto1 pDto2
    rfl rfl (by decide) (by decide) (by decide)
